import Mathlib

/-!
Verification development for the VectoDB core (`vectodb.cpp`): a durable
append-only vector store with an in-memory mirror, an index lifecycle
manager (build / try-build / activate of a faiss index snapshot), and a
hybrid query path merging indexed results with an exact scan of the
uncovered tail.

Three shallow embeddings are used, each faithful to the part of the source
its claims are about:

* `VStore`  — byte-level model of the durable log, the mirror buffers
  `base`/`uids` and the `uid2num` map (constructor replay, `AddWithIds`).
  Bytes are `Nat`s; a C++ `long` is its 64-bit pattern (a `Nat < 2^64`).
* `VSearch` — value-level model of the query path over exact rational
  vectors (`l2dist` is the squared L2 distance faiss's flat index reports;
  metric 0 is inner product).  The external faiss exact (flat) index is
  modelled from the spec as brute-force top-1 (`flatTop1`).
* `VLife`   — the lifecycle manager: vectors are opaque (`α`), a trained
  index records its training sample and absorbed vectors, persisted
  snapshot files are an association list keyed by training size.
-/

namespace VStore

/-- Little-endian byte serialization of an n-byte integer (C++ writes a
`long` by `memcpy`, i.e. its native little-endian bytes). -/
def toBytesLE (n : Nat) (v : Nat) : List Nat :=
  match n with
  | 0 => []
  | k + 1 => v % 256 :: toBytesLE k (v / 256)

/-- Little-endian read of a byte list as an integer (`*(long*)&buf[0]`). -/
def fromBytesLE : List Nat → Nat
  | [] => 0
  | b :: bs => b % 256 + 256 * fromBytesLE bs

/-- Mirror of `DbState` as far as the store claims need it: the durable log
`base.fvecs` as raw bytes, the dense vector buffer `base` as raw bytes, the
identifier list `uids` (64-bit patterns) and the `uid2num` map. -/
structure StoreState where
  log : List Nat
  base : List Nat
  uids : List Nat
  uid2num : List (Nat × Nat)
deriving Repr, DecidableEq

/-- `unordered_map` insert: overwrite the entry for the key if present,
otherwise add one. -/
def mapInsert (m : List (Nat × Nat)) (k v : Nat) : List (Nat × Nat) :=
  if m.any (fun p => p.1 == k) then
    m.map (fun p => if p.1 == k then (k, v) else p)
  else
    m ++ [(k, v)]

/-- `unordered_map` lookup. -/
def lookupMap (m : List (Nat × Nat)) (k : Nat) : Option Nat :=
  (m.find? (fun p => p.1 == k)).map Prod.snd

/-- The replay loop's map updates: `uid2num[uid] = i` for `i = 0, 1, ...`
in file order (vectodb.cpp:95). -/
def buildUid2numAux (m : List (Nat × Nat)) (i : Nat) : List Nat → List (Nat × Nat)
  | [] => m
  | u :: rest => buildUid2numAux (mapInsert m u i) (i + 1) rest

/-- Position of the last occurrence of `u` in `l` (specification-side
description of "last occurrence wins"). -/
def lastIdxOfAux (acc : Option Nat) (i : Nat) (u : Nat) : List Nat → Option Nat
  | [] => acc
  | a :: rest => lastIdxOfAux (if a == u then some i else acc) (i + 1) u rest

def lastIdxOf (l : List Nat) (u : Nat) : Option Nat :=
  lastIdxOfAux none 0 u l

/-- The fixed-length records of the log: chunk `i` is bytes
`[i*(8+4*dim), (i+1)*(8+4*dim))` (vectodb.cpp:90-92). -/
def recordsOf (dim : Nat) (log : List Nat) : List (List Nat) :=
  (List.range (log.length / (8 + 4 * dim))).map
    (fun i => (log.drop (i * (8 + 4 * dim))).take (8 + 4 * dim))

/-- Constructor replay (vectodb.cpp:78-97): fail when the log length is not
a multiple of the record length `8 + 4*dim`, otherwise replay every record
into `base`, `uids` and `uid2num` in file order, positions sequential
from 0.  (The subsequent index loading and `buildFlatIndex` call of the
constructor belong to the lifecycle model.) -/
def openReplay (dim : Nat) (log : List Nat) : Except String StoreState :=
  if log.length % (8 + 4 * dim) ≠ 0 then
    Except.error "file size is not multiple of line length"
  else
    let recs := recordsOf dim log
    let us := recs.map (fun r => fromBytesLE (r.take 8))
    Except.ok
      { log := log
        base := recs.foldl (fun acc r => acc ++ r.drop 8) []
        uids := us
        uid2num := buildUid2numAux [] 0 us }

/-- `AddWithIds` (vectodb.cpp:135-153), byte level.  `xids` are the `nb`
caller ids (64-bit patterns), `xb` the `nb*dim*4` bytes of the input
vectors.  The log gains each record as `{id bytes}{vector bytes}` (built
from `xids`, correctly); the mirror `base` gains the vector bytes; the
mirror `uids` gains `nb` longs copied from the FIRST `8*nb` BYTES OF `xb`
(the source's `memcpy(&state->uids[nb2], xb, nb * sizeof(long))` reads the
vector buffer, not `xids`); `uid2num` is not touched by the source. -/
def addWithIds (dim : Nat) (s : StoreState) (xids : List Nat) (xb : List Nat) :
    StoreState :=
  let nb := xids.length
  let buf := (List.range nb).foldl
    (fun acc i => acc ++ toBytesLE 8 (xids.getD i 0) ++ ((xb.drop (i * (4 * dim))).take (4 * dim))) []
  { log := s.log ++ buf
    base := s.base ++ xb.take (nb * (4 * dim))
    uids := s.uids ++ (List.range nb).map (fun i => fromBytesLE ((xb.drop (8 * i)).take 8))
    uid2num := s.uid2num }

/-- The empty store (fresh directory: empty log, empty mirror). -/
def emptyStore : StoreState :=
  { log := [], base := [], uids := [], uid2num := [] }

end VStore

namespace VSearch

/-- Squared L2 distance, the value faiss reports for `METRIC_L2`
(exact rationals stand in for `float`). -/
def l2dist (x y : List ℚ) : ℚ :=
  ((x.zip y).map (fun p => (p.1 - p.2) ^ 2)).sum

/-- Inner product, the value faiss reports for `METRIC_INNER_PRODUCT`. -/
def ipScore (x y : List ℚ) : ℚ :=
  ((x.zip y).map (fun p => p.1 * p.2)).sum

/-- The "distance" an exact index reports for metric `m` (0 is inner
product as in vectodb.cpp:162, anything else is L2). -/
def score (m : Nat) (x q : List ℚ) : ℚ :=
  if m = 0 then ipScore x q else l2dist x q

/-- `better m a b`: reported value `a` beats reported value `b` strictly
(larger inner product, or smaller L2 distance). -/
def better (m : Nat) (a b : ℚ) : Bool :=
  if m = 0 then decide (b < a) else decide (a < b)

/-- Modelled from the spec: the external exact ("Flat") faiss index is a
brute-force scanner; its top result for a query is a best-scoring database
vector together with its insertion position.  `i` is the position of the
head of the remaining list; ties keep the earliest position. -/
def flatTop1Aux (m : Nat) (q : List ℚ) : List (List ℚ) → Nat → Option (ℚ × Nat)
  | [], _ => none
  | v :: rest, i =>
    match flatTop1Aux m q rest (i + 1) with
    | none => some (score m v q, i)
    | some (d2, j) =>
      if better m d2 (score m v q) then some (d2, j) else some (score m v q, i)

def flatTop1 (m : Nat) (vecs : List (List ℚ)) (q : List ℚ) : Option (ℚ × Nat) :=
  flatTop1Aux m q vecs 0

/-- The per-query merge of `Search` (vectodb.cpp:279-294): when the active
index's `ntotal` (`isz`) is below the store size, the uncovered tail is
exact-scanned and its result `tl` replaces the indexed result exactly when
`0 == index_size || distances[i] > D[i*k]`.  The tail result's id is the
position *within the tail slice*, exactly as the source reports it. -/
def mergeOne (isz baseLen : Nat) (indexed : Option (ℚ × Nat))
    (tl : Option (ℚ × Nat)) : Option (ℚ × Nat) :=
  if isz < baseLen then
    match tl with
    | none => indexed
    | some t =>
      if isz = 0 then some t
      else
        match indexed with
        | none => some t
        | some p => if p.1 > t.1 then some t else some p
  else indexed

/-- `Search` for one query when the active index is the exact (Flat)
variant (vectodb.cpp:243-297): the flat index's raw top-1 is used without
refinement (lines 272-277), then the uncovered tail `[index_size, Size())`
is exact-scanned and merged (lines 279-294). `index = none` models a null
`state->index` (no indexed result, `getIndexSize() = 0`). -/
def searchOne (m : Nat) (index : Option (List (List ℚ))) (base : List (List ℚ))
    (q : List ℚ) : Option (ℚ × Nat) :=
  let indexed :=
    match index with
    | some vecs => flatTop1 m vecs q
    | none => none
  let isz :=
    match index with
    | some vecs => vecs.length
    | none => 0
  mergeOne isz base.length indexed (flatTop1 m (base.drop isz) q)

/-- Search-relevant state of the Flat variant: the mirror vector buffer and
the vectors the active exact index has absorbed.  (The `uids` mirror and the
durable log, which `Search` never reads, live in the byte-level
`VStore.StoreState`.) -/
structure FlatDb where
  base : List (List ℚ)
  index : List (List ℚ)
deriving Repr, DecidableEq

/-- `AddWithIds` as it affects the Flat variant's search state
(vectodb.cpp:147-152 with vectodb.cpp:155-169): the mirror gains the `nb`
new vectors, and `buildFlatIndex(state->index, nb + nb2, xb)` makes the
index absorb `nb + nb2` vectors starting at `xb` — the `nb` new vectors
followed by `nb2 = |base|` out-of-bounds reads past the end of the input
buffer, supplied here as `junk` (callers must pass `junk.length =
s.base.length` for the faithful count). -/
def addWithIdsFlat (s : FlatDb) (newVecs junk : List (List ℚ)) : FlatDb :=
  { base := s.base ++ newVecs
    index := s.index ++ newVecs ++ junk }

end VSearch

namespace VLife

/-- `MAX_NTRAIN` (vectodb.cpp:26). -/
def MAX_NTRAIN : Nat := 160000

/-- A faiss index as the lifecycle claims need it: the sample it was
trained on and the vectors it has absorbed (`ntotal = vecs.length`).
Vectors are opaque values of type `α`. -/
structure TrainedIndex (α : Type) where
  trainedOn : List α
  vecs : List α
deriving Repr, DecidableEq

/-- Lifecycle state: the store fields of `DbState` (all untouched by the
read methods), the recorded training size `ntrain`, the active index
pointer, and the persisted snapshot files of the working directory as an
association list keyed by training size (`<index_key>.<ntrain>.index`). -/
structure DbLState (α : Type) where
  log : List (Nat × α)
  base : List α
  uids : List Nat
  uid2num : List (Nat × Nat)
  ntrain : Nat
  index : Option (TrainedIndex α)
  files : List (Nat × TrainedIndex α)
deriving Repr, DecidableEq

/-- Read a persisted snapshot file (`faiss::read_index`). -/
def lookupFile {α : Type} (files : List (Nat × TrainedIndex α)) (nt : Nat) :
    Option (TrainedIndex α) :=
  (files.find? (fun p => p.1 == nt)).map Prod.snd

/-- `fs::remove` of the snapshot file for training size `nt`. -/
def removeFile {α : Type} (files : List (Nat × TrainedIndex α)) (nt : Nat) :
    List (Nat × TrainedIndex α) :=
  files.filter (fun p => p.1 != nt)

/-- `faiss::write_index` of `ix` to the file for training size `nt`
(overwrites a file of the same name). -/
def writeFile {α : Type} (files : List (Nat × TrainedIndex α)) (nt : Nat)
    (ix : TrainedIndex α) : List (Nat × TrainedIndex α) :=
  removeFile files nt ++ [(nt, ix)]

/-- `getIndexSize` (vectodb.cpp:338-341). -/
def getIndexSize {α : Type} (s : DbLState α) : Nat :=
  match s.index with
  | none => 0
  | some ix => ix.vecs.length

/-- `ActivateIndex` (vectodb.cpp:120-133), statement for statement.
`flatKey` is `index_key == "Flat"`; `writeOk` models whether the
`faiss::write_index` call succeeds (an I/O failure throws, so the swap at
lines 130-132 does not run — but the `fs::remove` at line 126 has already
happened). -/
def ActivateIndex {α : Type} (flatKey writeOk : Bool) (s : DbLState α)
    (idx : Option (TrainedIndex α)) (nt : Nat) : DbLState α :=
  match idx with
  | none => s
  | some ix =>
    if flatKey then
      { s with ntrain := nt, index := some ix }
    else
      let files1 := if s.ntrain ≠ 0 then removeFile s.files s.ntrain else s.files
      if writeOk then
        { s with files := writeFile files1 nt ix, ntrain := nt, index := some ix }
      else
        { s with files := files1 }

/-- `BuildIndex` (vectodb.cpp:190-241), branch for branch; each branch
returns the state unchanged (the method is `const` and assigns to no state
field) alongside the out-parameters `(index_out, ntrain)` — `none` for an
out-parameter the source leaves untouched.  Errors: the assertion at line
202 (null active index while `nt == state->ntrain`), a missing snapshot
file at the `faiss::read_index` of line 209, and faiss's fatal error when
`train` is called with zero points (spec §7: training precondition). -/
def BuildIndex {α : Type} (flatKey : Bool) (s : DbLState α) :
    DbLState α × Except String (Option (TrainedIndex α) × Option Nat) :=
  let nb := s.base.length
  if flatKey then
    (s, Except.ok (some ⟨[], s.base⟩, some 0))
  else
    let nt := min nb (max (nb / 10) MAX_NTRAIN)
    if nt = s.ntrain then
      match s.index with
      | none => (s, Except.error "assertion failed: state->index != nullptr")
      | some ix =>
        if nb = ix.vecs.length then
          (s, Except.ok (none, some nt))
        else
          match lookupFile s.files nt with
          | none => (s, Except.error "faiss::read_index: no such file")
          | some f =>
            (s, Except.ok (some ⟨f.trainedOn, f.vecs ++ s.base.drop ix.vecs.length⟩, some nt))
    else
      if nt = 0 then (s, Except.error "faiss: cannot train on 0 vectors")
      else (s, Except.ok (some ⟨s.base.take nt, s.base⟩, some nt))

/-- `TryBuildIndex` (vectodb.cpp:183-188): return with untouched
out-parameters when `uids.size() - getIndexSize() <= exhaust_threshold`,
otherwise fall through to `BuildIndex`.  (`uids.size()` equals
`base.length` here: the store size.) -/
def TryBuildIndex {α : Type} (flatKey : Bool) (t : Int) (s : DbLState α) :
    DbLState α × Except String (Option (TrainedIndex α) × Option Nat) :=
  if (s.base.length : Int) - (getIndexSize s : Int) ≤ t then
    (s, Except.ok (none, none))
  else BuildIndex flatKey s

end VLife

/-! ## Helper lemmas: the store's id→position map -/

namespace VStore

theorem find?_replaceMap_ne (k v k' : Nat) (h : k' ≠ k) (rest : List (Nat × Nat)) :
    (rest.map (fun p => if p.1 == k then (k, v) else p)).find? (fun p => p.1 == k') =
      rest.find? (fun p => p.1 == k') := by
  induction rest with
  | nil => rfl
  | cons q rest ih =>
    rcases eq_or_ne q.1 k with hq | hq
    · rw [List.map_cons, if_pos (by simpa using hq),
        List.find?_cons_of_neg _ (by simpa using Ne.symm h),
        List.find?_cons_of_neg _ (by simp [hq]; exact Ne.symm h)]
      exact ih
    · rw [List.map_cons, if_neg (by simpa using hq)]
      rcases eq_or_ne q.1 k' with hq' | hq'
      · rw [List.find?_cons_of_pos _ (by simpa using hq'),
          List.find?_cons_of_pos _ (by simpa using hq')]
      · rw [List.find?_cons_of_neg _ (by simpa using hq'),
          List.find?_cons_of_neg _ (by simpa using hq')]
        exact ih

theorem find?_replaceMap_self (k v : Nat) (rest : List (Nat × Nat))
    (h : rest.any (fun p => p.1 == k) = true) :
    (rest.map (fun p => if p.1 == k then (k, v) else p)).find? (fun p => p.1 == k) =
      some (k, v) := by
  induction rest with
  | nil => simp at h
  | cons q rest ih =>
    rcases eq_or_ne q.1 k with hq | hq
    · rw [List.map_cons, if_pos (by simpa using hq),
        List.find?_cons_of_pos _ (by simp)]
    · have h' : rest.any (fun p => p.1 == k) = true := by
        simpa [hq] using h
      rw [List.map_cons, if_neg (by simpa using hq),
        List.find?_cons_of_neg _ (by simpa using hq)]
      exact ih h'

theorem lookupMap_mapInsert (m : List (Nat × Nat)) (k v k' : Nat) :
    lookupMap (mapInsert m k v) k' = if k' = k then some v else lookupMap m k' := by
  rcases eq_or_ne k' k with hk | hk
  · rw [if_pos hk]
    unfold mapInsert lookupMap
    split
    · rename_i hany
      rw [hk, find?_replaceMap_self k v m hany]
      rfl
    · rename_i hany
      have hf : m.any (fun p => p.1 == k) = false := Bool.eq_false_iff.mpr hany
      have hnone : m.find? (fun p => p.1 == k') = none := by
        apply List.find?_eq_none.mpr
        intro x hx
        have hall := List.any_eq_false.mp hf
        simpa [hk] using hall x hx
      rw [List.find?_append, hnone, Option.none_or, hk,
        List.find?_cons_of_pos _ (by simp)]
      rfl
  · rw [if_neg hk]
    unfold mapInsert lookupMap
    split
    · rw [find?_replaceMap_ne k v k' hk m]
    · have hlast : List.find? (fun p => p.1 == k') [(k, v)] = none := by
        rw [List.find?_cons_of_neg _ (by simpa using Ne.symm hk)]
        rfl
      rw [List.find?_append, hlast, Option.or_none]

theorem lookupMap_buildAux (u : Nat) :
    ∀ (l : List Nat) (m : List (Nat × Nat)) (i : Nat),
      lookupMap (buildUid2numAux m i l) u = lastIdxOfAux (lookupMap m u) i u l := by
  intro l
  induction l with
  | nil => intro m i; rfl
  | cons a rest ih =>
    intro m i
    show lookupMap (buildUid2numAux (mapInsert m a i) (i + 1) rest) u
        = lastIdxOfAux (if a == u then some i else lookupMap m u) (i + 1) u rest
    rw [ih]
    congr 1
    rw [lookupMap_mapInsert]
    rcases eq_or_ne a u with h | h
    · simp [h]
    · simp [h, Ne.symm h]

theorem foldl_append_join (f : List Nat → List Nat) :
    ∀ (l : List (List Nat)) (acc : List Nat),
      l.foldl (fun a r => a ++ f r) acc = acc ++ (l.map f).flatten := by
  intro l
  induction l with
  | nil => intro acc; simp
  | cons r rest ih => intro acc; simp [ih, List.append_assoc]

end VStore

/-! ## Helper lemmas: the exact scanner and the query path -/

namespace VSearch

theorem better_irrefl (m : Nat) (a : ℚ) : better m a a = false := by
  unfold better
  split <;> simp

theorem better_asymm (m : Nat) (a b : ℚ) (h : better m a b = true) :
    better m b a = false := by
  unfold better at h ⊢
  by_cases hm : m = 0
  · rw [if_pos hm] at h ⊢
    simp only [decide_eq_true_eq] at h
    simpa using le_of_lt h
  · rw [if_neg hm] at h ⊢
    simp only [decide_eq_true_eq] at h
    simpa using le_of_lt h

theorem better_trans_false (m : Nat) (a b c : ℚ) (h : better m a b = false)
    (h' : better m c a = false) : better m c b = false := by
  unfold better at h h' ⊢
  by_cases hm : m = 0
  · rw [if_pos hm] at h h' ⊢
    simp only [decide_eq_false_iff_not, not_lt] at h h' ⊢
    exact h'.trans h
  · rw [if_neg hm] at h h' ⊢
    simp only [decide_eq_false_iff_not, not_lt] at h h' ⊢
    exact h.trans h'

theorem flatTop1Aux_cons_isSome (m : Nat) (q v : List ℚ) (rest : List (List ℚ))
    (i : Nat) : (flatTop1Aux m q (v :: rest) i).isSome = true := by
  simp only [flatTop1Aux]
  cases flatTop1Aux m q rest (i + 1) with
  | none => rfl
  | some dj =>
    obtain ⟨d2, j⟩ := dj
    dsimp only
    split <;> rfl

theorem flatTop1Aux_spec (m : Nat) (q : List ℚ) :
    ∀ (l : List (List ℚ)) (i : Nat) (d : ℚ) (j : Nat),
      flatTop1Aux m q l i = some (d, j) →
      i ≤ j ∧ (∃ w, l.get? (j - i) = some w ∧ d = score m w q) ∧
        ∀ w ∈ l, better m (score m w q) d = false := by
  intro l
  induction l with
  | nil => intro i d j h; simp [flatTop1Aux] at h
  | cons v rest ih =>
    intro i d j h
    simp only [flatTop1Aux] at h
    cases hrec : flatTop1Aux m q rest (i + 1) with
    | none =>
      rw [hrec] at h
      simp only [Option.some.injEq, Prod.mk.injEq] at h
      obtain ⟨hd, hj⟩ := h
      subst hd
      subst hj
      have hrest : rest = [] := by
        cases rest with
        | nil => rfl
        | cons a t =>
          have := flatTop1Aux_cons_isSome m q a t (i + 1)
          rw [hrec] at this
          simp at this
      subst hrest
      refine ⟨Nat.le_refl i, ⟨v, by simp, rfl⟩, ?_⟩
      intro w hw
      have hwv : w = v := by simpa using hw
      subst hwv
      exact better_irrefl m _
    | some dj =>
      obtain ⟨d2, j2⟩ := dj
      rw [hrec] at h
      have hspec := ih (i + 1) d2 j2 hrec
      dsimp only at h
      by_cases hb : better m d2 (score m v q) = true
      · rw [if_pos hb] at h
        simp only [Option.some.injEq, Prod.mk.injEq] at h
        obtain ⟨hd, hj⟩ := h
        subst hd
        subst hj
        obtain ⟨hij, ⟨w, hw, hdw⟩, hmin⟩ := hspec
        refine ⟨Nat.le_of_succ_le hij, ⟨w, ?_, hdw⟩, ?_⟩
        · have hji : j2 - i = (j2 - (i + 1)) + 1 := by omega
          rw [hji, List.get?_cons_succ]
          exact hw
        · intro w' hw'
          rcases List.mem_cons.mp hw' with h1 | h1
          · subst h1
            exact better_asymm m _ _ hb
          · exact hmin w' h1
      · rw [if_neg hb] at h
        simp only [Option.some.injEq, Prod.mk.injEq] at h
        obtain ⟨hd, hj⟩ := h
        subst hd
        subst hj
        refine ⟨Nat.le_refl i, ⟨v, by simp, rfl⟩, ?_⟩
        intro w' hw'
        rcases List.mem_cons.mp hw' with h1 | h1
        · subst h1
          exact better_irrefl m _
        · have h2 : better m d2 (score m v q) = false := Bool.eq_false_iff.mpr hb
          exact better_trans_false m d2 (score m v q) _ h2 (hspec.2.2 w' h1)

theorem l2dist_self (x : List ℚ) : l2dist x x = 0 := by
  unfold l2dist
  induction x with
  | nil => simp
  | cons a l ih => simpa using ih

theorem l2dist_nonneg (x y : List ℚ) : 0 ≤ l2dist x y := by
  unfold l2dist
  apply List.sum_nonneg
  intro z hz
  simp only [List.mem_map] at hz
  obtain ⟨p, _, hp⟩ := hz
  exact hp ▸ sq_nonneg _

theorem l2dist_eq_zero (x : List ℚ) :
    ∀ y : List ℚ, x.length = y.length → l2dist x y = 0 → x = y := by
  induction x with
  | nil =>
    intro y hlen _
    cases y with
    | nil => rfl
    | cons b ys => simp at hlen
  | cons a xs ih =>
    intro y hlen h
    cases y with
    | nil => simp at hlen
    | cons b ys =>
      have hlen' : xs.length = ys.length := by simpa using hlen
      have hsum : (a - b) ^ 2 + l2dist xs ys = 0 := by
        simpa [l2dist] using h
      have h1 : (0 : ℚ) ≤ (a - b) ^ 2 := sq_nonneg _
      have h2 : (0 : ℚ) ≤ l2dist xs ys := l2dist_nonneg xs ys
      have hab : (a - b) ^ 2 = 0 := by linarith
      have htail : l2dist xs ys = 0 := by linarith
      have hb : a = b := by
        have hz := pow_eq_zero_iff (n := 2) (by norm_num) |>.mp hab
        linarith [sub_eq_zero.mp hz]
      rw [hb, ih ys hlen' htail]

theorem searchOne_covered (m : Nat) (vecs base : List (List ℚ)) (q : List ℚ)
    (h : base.length ≤ vecs.length) :
    searchOne m (some vecs) base q = flatTop1 m vecs q := by
  unfold searchOne mergeOne
  simp [Nat.not_lt.mpr h]

end VSearch

/-! ## Claim theorems -/

/-- C1: evaluation of `AddWithIds` at a failing input.  Appending one
record with caller id 5 and vector bytes all zero (`dim = 2`) makes the
mirror id list gain 0 — the first 8 bytes of the *vector* buffer
reinterpreted as a long, not the caller id 5 — and leaves `uid2num`
untouched, so the new id is not mapped and
`len(records) == len(id_index)` fails (1 ≠ 0) even though the single id
is distinct. -/
theorem C1_append_mirror_ids_bug :
    (VStore.addWithIds 2 VStore.emptyStore [5] [0, 0, 0, 0, 0, 0, 0, 0]).uids = [0] ∧
    (VStore.addWithIds 2 VStore.emptyStore [5] [0, 0, 0, 0, 0, 0, 0, 0]).uids ≠ [5] ∧
    (VStore.addWithIds 2 VStore.emptyStore [5] [0, 0, 0, 0, 0, 0, 0, 0]).uid2num = [] ∧
    (VStore.addWithIds 2 VStore.emptyStore [5] [0, 0, 0, 0, 0, 0, 0, 0]).uids.length ≠
      (VStore.addWithIds 2 VStore.emptyStore [5] [0, 0, 0, 0, 0, 0, 0, 0]).uid2num.length := by
  decide

/-- C2, counterexample: on a fresh Flat store, append the single vector
`[1]` with caller id 7; `Search` on that same vector returns distance 0 but
id 0 — the faiss-internal position of the record — and 0 ≠ 7, so the
claim "returns id == u" is false as stated (the caller id never reaches
the search path: `Search` reports raw faiss positions,
vectodb.cpp:267,274,291). -/
theorem C2_search_returns_position_not_uid :
    VSearch.searchOne 1
        (some (VSearch.addWithIdsFlat ⟨[], []⟩ [[(1 : ℚ)]] []).index)
        (VSearch.addWithIdsFlat ⟨[], []⟩ [[(1 : ℚ)]] []).base
        [(1 : ℚ)] = some (0, 0) ∧
    (0 : Nat) ≠ 7 := by
  refine ⟨?_, by decide⟩
  norm_num [VSearch.searchOne, VSearch.mergeOne, VSearch.flatTop1,
    VSearch.flatTop1Aux, VSearch.score, VSearch.l2dist, VSearch.addWithIdsFlat]

/-- C3: evaluation of `ActivateIndex` at a failing input.  With an old
persisted snapshot for training size 2 and a failing write of the new
snapshot (training size 1), the old file is already removed when the write
fails (the `fs::remove` at vectodb.cpp:126 precedes the
`faiss::write_index` at line 128), so zero snapshot files remain — the
claim's "old persisted file intact on failed write" is violated. -/
theorem C3_failed_write_loses_old_snapshot :
    (VLife.ActivateIndex (α := Nat) false false
        ⟨[], [1, 2], [], [], 2, some ⟨[1], [1]⟩, [(2, ⟨[1], [1]⟩)]⟩
        (some ⟨[], [1, 2]⟩) 1).files = [] ∧
    VLife.lookupFile
        (VLife.ActivateIndex (α := Nat) false false
          ⟨[], [1, 2], [], [], 2, some ⟨[1], [1]⟩, [(2, ⟨[1], [1]⟩)]⟩
          (some ⟨[], [1, 2]⟩) 1).files 2 = none := by
  exact ⟨rfl, rfl⟩

/-- C5: evaluation of the Flat append path at a failing input.  Two
successive single-vector appends on a fresh Flat store leave the exact
snapshot with 3 absorbed vectors against a store of 2: the second call to
`buildFlatIndex(state->index, nb + nb2, xb)` (vectodb.cpp:152) absorbs
`nb + nb2 = 2` vectors from a buffer holding only `nb = 1`, so coverage
overshoots the store size instead of matching it (the `junk` argument
`[[37]]` stands for the one vector read past the end of the input
buffer). -/
theorem C5_flat_coverage_overshoots :
    (VSearch.addWithIdsFlat (VSearch.addWithIdsFlat ⟨[], []⟩ [[(1 : ℚ)]] [])
        [[(2 : ℚ)]] [[(37 : ℚ)]]).base.length = 2 ∧
    (VSearch.addWithIdsFlat (VSearch.addWithIdsFlat ⟨[], []⟩ [[(1 : ℚ)]] [])
        [[(2 : ℚ)]] [[(37 : ℚ)]]).index.length = 3 ∧
    (3 : Nat) ≠ 2 := by
  decide

/-- C7, counterexample: non-Flat store with one vector, no active index,
threshold 0.  The first `TryBuildIndex` performs the rebuild work (returns
a built candidate), leaves the state unchanged (the method is `const` and
activates nothing), and the second call on that unchanged state performs
exactly the same rebuild work again — it is not a no-op. -/
theorem C7_second_call_repeats_work :
    (VLife.TryBuildIndex (α := Nat) false 0 ⟨[], [0], [], [], 0, none, []⟩).2 =
      Except.ok (some ⟨[0], [0]⟩, some 1) ∧
    (VLife.TryBuildIndex (α := Nat) false 0
        (VLife.TryBuildIndex (α := Nat) false 0 ⟨[], [0], [], [], 0, none, []⟩).1).2 =
      Except.ok (some ⟨[0], [0]⟩, some 1) ∧
    (VLife.TryBuildIndex (α := Nat) false 0
        (VLife.TryBuildIndex (α := Nat) false 0 ⟨[], [0], [], [], 0, none, []⟩).1).2 ≠
      Except.ok (none, none) := by
  refine ⟨rfl, rfl, ?_⟩
  have hval : (VLife.TryBuildIndex (α := Nat) false 0
      (VLife.TryBuildIndex (α := Nat) false 0 ⟨[], [0], [], [], 0, none, []⟩).1).2 =
      Except.ok (some ⟨[0], [0]⟩, some 1) := rfl
  rw [hval]
  simp

/-- C8: evaluation of close-and-reopen at a failing input.  After the
single append of C1, replaying the durable log yields a mirror with the
*logged* id 5 (the log was written from `xids`, correctly), while the
pre-close in-memory mirror holds id 0 — so the reopened mirror is not
identical to the one before closing. -/
theorem C8_reopen_mirror_differs :
    VStore.openReplay 2 (VStore.addWithIds 2 VStore.emptyStore [5] [0, 0, 0, 0, 0, 0, 0, 0]).log =
      Except.ok
        { log := [5, 0, 0, 0, 0, 0, 0, 0, 0, 0, 0, 0, 0, 0, 0, 0]
          base := [0, 0, 0, 0, 0, 0, 0, 0]
          uids := [5]
          uid2num := [(5, 0)] } ∧
    (VStore.addWithIds 2 VStore.emptyStore [5] [0, 0, 0, 0, 0, 0, 0, 0]).uids ≠ [5] := by
  exact ⟨rfl, by decide⟩

/-- C4: the merge rule of the hybrid query path, straight from
vectodb.cpp:279-294.  With `isz` the active index's `ntotal` and `len` the
store size: when `uncovered = len - isz = 0` the tail scan is skipped and
the indexed result stands; when no indexed result exists (absent or empty
index, `isz = 0`) the tail result is authoritative; when both exist the
smaller distance wins and ties keep the indexed result. -/
theorem C4_merge_rule (isz len : Nat) (p t : ℚ × Nat)
    (indexed tl : Option (ℚ × Nat)) :
    (VSearch.mergeOne len len indexed tl = indexed) ∧
    (0 < len → VSearch.mergeOne 0 len none (some t) = some t) ∧
    (0 < isz → isz < len →
      VSearch.mergeOne isz len (some p) (some t) =
        some (if t.1 < p.1 then t else p)) := by
  refine ⟨?_, ?_, ?_⟩
  · simp [VSearch.mergeOne]
  · intro h
    simp [VSearch.mergeOne, h]
  · intro h1 h2
    have h0 : isz ≠ 0 := Nat.pos_iff_ne_zero.mp h1
    simp only [VSearch.mergeOne, if_pos h2]
    rw [if_neg h0]
    by_cases hc : t.1 < p.1
    · rw [if_pos (show p.1 > t.1 from hc), if_pos hc]
    · rw [if_neg (show ¬p.1 > t.1 from hc), if_neg hc]

theorem buildIndex_fst {α : Type} (flatKey : Bool) (s : VLife.DbLState α) :
    (VLife.BuildIndex flatKey s).1 = s := by
  unfold VLife.BuildIndex
  split
  · rfl
  · split
    · dsimp only
      split
      · rfl
      · split <;> rfl
    · dsimp only
      split
      · split
        · rfl
        · split <;> rfl
      · split <;> rfl

/-- C10: `TryBuildIndex` and `BuildIndex` are pure readers: the returned
state — mirror buffers, identifier list, id→position map, durable log,
active index pointer, recorded training size, and the persisted snapshot
files — is the input state in every branch (both methods are `const` and,
line for line, assign to no member of `DbState`); and a candidate takes
effect only through `ActivateIndex`, which with a null candidate
(`index == nullptr`, vectodb.cpp:122-123) changes nothing either. -/
theorem C10_read_methods_frame {α : Type} (flatKey w : Bool) (t : Int) (nt : Nat)
    (s : VLife.DbLState α) :
    (VLife.BuildIndex flatKey s).1 = s ∧
    (VLife.TryBuildIndex flatKey t s).1 = s ∧
    VLife.ActivateIndex flatKey w s none nt = s := by
  refine ⟨buildIndex_fst flatKey s, ?_, rfl⟩
  unfold VLife.TryBuildIndex
  split
  · rfl
  · exact buildIndex_fst flatKey s

/-- C7 (amended): `TryBuildIndex(t)` returns with untouched out-parameters
(the silent successful no-op, modelled as result `(none, none)`) exactly
when `uncovered = Size() - getIndexSize() <= t`; every path through
`BuildIndex` either writes the `ntrain` out-parameter or fails, so no call
with `uncovered > t` is such a no-op.  Since the call mutates nothing,
a second call with no intervening `Append` or `ActivateIndex` behaves
identically to the first — it repeats the rebuild work rather than being
a no-op. -/
theorem C7_tryBuild_noop_iff {α : Type} (flatKey : Bool) (t : Int)
    (s : VLife.DbLState α) :
    (VLife.TryBuildIndex flatKey t s).2 = Except.ok (none, none) ↔
      (s.base.length : Int) - (VLife.getIndexSize s : Int) ≤ t := by
  unfold VLife.TryBuildIndex
  by_cases h : (s.base.length : Int) - (VLife.getIndexSize s : Int) ≤ t
  · simp [h]
  · rw [if_neg h]
    constructor
    · intro hb
      exfalso
      revert hb
      unfold VLife.BuildIndex
      split
      · simp
      · split
        · dsimp only
          split
          · simp
          · split <;> simp
        · dsimp only
          split
          · split
            · simp
            · split <;> simp
          · split <;> simp
    · intro hle
      exact absurd hle h

/-- C6: the three cases of `BuildIndex` for a training-requiring
(non-Flat) variant, with `nt = min(store_size, max(store_size / 10,
MAX_NTRAIN))` and `MAX_NTRAIN = 160000` (vectodb.cpp:26,200): when `nt`
equals the active snapshot's training size and the store size equals its
coverage, nothing is built; when `nt` equals the training size but
coverage lags, the persisted snapshot for `nt` is reloaded and absorbs
only the delta vectors `[coverage, store_size)` with its training sample
unchanged (no retraining); when `nt` differs (and is positive), a new
index is built, trained on the first `nt` store vectors, absorbing all
store vectors. -/
theorem C6_buildIndex_cases {α : Type} (s : VLife.DbLState α)
    (ix f : VLife.TrainedIndex α) :
    VLife.MAX_NTRAIN = 160000 ∧
    (s.index = some ix →
      min s.base.length (max (s.base.length / 10) VLife.MAX_NTRAIN) = s.ntrain →
      s.base.length = ix.vecs.length →
      (VLife.BuildIndex false s).2 = Except.ok (none, some s.ntrain)) ∧
    (s.index = some ix →
      min s.base.length (max (s.base.length / 10) VLife.MAX_NTRAIN) = s.ntrain →
      ix.vecs.length < s.base.length →
      VLife.lookupFile s.files s.ntrain = some f →
      (VLife.BuildIndex false s).2 =
        Except.ok (some ⟨f.trainedOn, f.vecs ++ s.base.drop ix.vecs.length⟩,
          some s.ntrain)) ∧
    (min s.base.length (max (s.base.length / 10) VLife.MAX_NTRAIN) ≠ s.ntrain →
      0 < min s.base.length (max (s.base.length / 10) VLife.MAX_NTRAIN) →
      (VLife.BuildIndex false s).2 =
        Except.ok
          (some ⟨s.base.take (min s.base.length (max (s.base.length / 10) VLife.MAX_NTRAIN)),
              s.base⟩,
            some (min s.base.length (max (s.base.length / 10) VLife.MAX_NTRAIN)))) := by
  refine ⟨rfl, ?_, ?_, ?_⟩
  · intro hix hnt hcov
    unfold VLife.BuildIndex
    rw [if_neg (by decide : ¬(false = true))]
    dsimp only
    rw [hnt, if_pos rfl, hix]
    dsimp only
    rw [if_pos hcov]
  · intro hix hnt hcov hfile
    unfold VLife.BuildIndex
    rw [if_neg (by decide : ¬(false = true))]
    dsimp only
    rw [hnt, if_pos rfl, hix]
    dsimp only
    rw [if_neg (ne_of_gt hcov), hfile]
  · intro hnt hpos
    unfold VLife.BuildIndex
    rw [if_neg (by decide : ¬(false = true))]
    dsimp only
    rw [if_neg hnt, if_neg (Nat.pos_iff_ne_zero.mp hpos)]

/-- C2 (amended): for the exact ("Flat") variant under the L2 metric, when
the active exact index covers the whole store, searching for an
already-stored vector `v` returns distance exactly 0 together with the
faiss-internal position of a record whose vector equals `v` (the returned
id is that position, not the caller-supplied id — see the
counterexample). -/
theorem C2_amended_flat_selfmatch (vecs : List (List ℚ)) (v : List ℚ)
    (hmem : v ∈ vecs) (hlen : ∀ w ∈ vecs, w.length = v.length) :
    ∃ j, VSearch.searchOne 1 (some vecs) vecs v = some (0, j) ∧
      vecs.get? j = some v := by
  rw [VSearch.searchOne_covered 1 vecs vecs v (Nat.le_refl _)]
  cases htop : VSearch.flatTop1 1 vecs v with
  | none =>
    exfalso
    cases vecs with
    | nil => simp at hmem
    | cons a rest =>
      have hs := VSearch.flatTop1Aux_cons_isSome 1 v a rest 0
      have htop' : VSearch.flatTop1Aux 1 v (a :: rest) 0 = none := htop
      rw [htop'] at hs
      simp at hs
  | some dj =>
    obtain ⟨d, j⟩ := dj
    have htop' : VSearch.flatTop1Aux 1 v vecs 0 = some (d, j) := htop
    obtain ⟨-, ⟨w, hw, hdw⟩, hmin⟩ := VSearch.flatTop1Aux_spec 1 v vecs 0 d j htop'
    rw [Nat.sub_zero] at hw
    have hwmem : w ∈ vecs := List.get?_mem hw
    have hscore : ∀ x y : List ℚ, VSearch.score 1 x y = VSearch.l2dist x y := by
      intro x y
      simp [VSearch.score]
    have hbet : VSearch.better 1 (VSearch.l2dist v v) d = false := by
      rw [← hscore]
      exact hmin v hmem
    have hled : ¬VSearch.l2dist v v < d := by
      simpa [VSearch.better] using hbet
    have hd0 : d ≤ 0 := by
      rw [VSearch.l2dist_self v] at hled
      exact not_lt.mp hled
    have hdnn : 0 ≤ d := by
      rw [hdw, hscore]
      exact VSearch.l2dist_nonneg w v
    have hdz : d = 0 := le_antisymm hd0 hdnn
    have hwv : w = v := by
      apply VSearch.l2dist_eq_zero w v (hlen w hwmem)
      rw [← hscore, ← hdw]
      exact hdz
    refine ⟨j, ?_, ?_⟩
    · rw [hdz]
    · rw [hw, hwv]

/-- C2, witness for the amended theorem: the concrete one-vector store of
the counterexample — the self-match comes back at distance 0, position
0. -/
theorem C2_amended_flat_selfmatch_witness :
    ∃ j, VSearch.searchOne 1 (some [[(1 : ℚ)]]) [[(1 : ℚ)]] [(1 : ℚ)] = some (0, j) ∧
      [[(1 : ℚ)]].get? j = some [(1 : ℚ)] :=
  C2_amended_flat_selfmatch [[(1 : ℚ)]] [(1 : ℚ)] (by simp)
    (by intro w hw; simp at hw; simp [hw])

/-- C9: the constructor's open-time validation and replay
(vectodb.cpp:78-97).  Opening fails with the corrupt-store error exactly
when the log's byte length is not a multiple of the record length
`8 + 4*dim`; otherwise every record of the log is replayed, in file
order: the id list holds each record's first 8 bytes read as a long, the
mirror holds the concatenated vector bytes, there is one mirror entry per
log record, and the id→position map sends each id to the position of its
last occurrence (positions assigned sequentially from 0). -/
theorem C9_openReplay_spec (dim : Nat) (log : List Nat) :
    ((∃ e, VStore.openReplay dim log = Except.error e) ↔
      log.length % (8 + 4 * dim) ≠ 0) ∧
    (∀ st, VStore.openReplay dim log = Except.ok st →
      st.log = log ∧
      st.uids = (VStore.recordsOf dim log).map
        (fun r => VStore.fromBytesLE (r.take 8)) ∧
      st.uids.length = log.length / (8 + 4 * dim) ∧
      st.base = ((VStore.recordsOf dim log).map (fun r => r.drop 8)).flatten ∧
      ∀ u, VStore.lookupMap st.uid2num u = VStore.lastIdxOf st.uids u) := by
  by_cases h : log.length % (8 + 4 * dim) = 0
  · constructor
    · constructor
      · rintro ⟨e, he⟩
        unfold VStore.openReplay at he
        rw [if_neg (not_not.mpr h)] at he
        exact absurd he (by simp)
      · intro hne
        exact absurd h hne
    · intro st hst
      unfold VStore.openReplay at hst
      rw [if_neg (not_not.mpr h)] at hst
      have hst' := Except.ok.inj hst
      subst hst'
      refine ⟨rfl, rfl, ?_, ?_, ?_⟩
      · simp [VStore.recordsOf]
      · simpa using VStore.foldl_append_join (fun r => r.drop 8) (VStore.recordsOf dim log) []
      · intro u
        simpa [VStore.lastIdxOf, VStore.lookupMap] using
          VStore.lookupMap_buildAux u
            ((VStore.recordsOf dim log).map (fun r => VStore.fromBytesLE (r.take 8))) [] 0
  · constructor
    · constructor
      · intro _
        exact h
      · intro _
        refine ⟨"file size is not multiple of line length", ?_⟩
        unfold VStore.openReplay
        rw [if_pos h]
    · intro st hst
      unfold VStore.openReplay at hst
      rw [if_pos h] at hst
      exact absurd hst (by simp)
